import Mathlib

/-!
Shallow embedding of the channel based stream engine of the
apitalist collections repository (package stream), together with the
pull iterator adapter and the FromCollection source stage.

Modelling conventions.  Every stage worker is a single sequential
goroutine, so the sequence of events it delivers on its data and error
conduits is deterministic: first the data elements in order, then either
a clean close of both conduits or a single error value followed by the
close.  A stage observable output is therefore modelled as a
StreamModel: the list of delivered elements plus an optional error.
Terminal operations are modelled as functions of this event sequence,
translated clause by clause from the Go select loops; a Boolean field
records whether the operation closed the shared completion
(cancellation) channel on the path it took.  The Go zero value of the
element type is passed explicitly where the source declares a defaulted
variable.  In the two places where a select could observe both a closed
data conduit and a closed error conduit, the source returns the same
result on either branch, so the embedding stays a function.
-/

namespace Collections

/-- Error values of the repository: the two sentinel errors of package
collections (ErrIndexOutOfBounds, ErrElementNotFound) plus arbitrary
caller supplied errors, distinguished by a numeric code. -/
inductive GoError where
  | indexOutOfBounds
  | elementNotFound
  | userError (code : Nat)
  deriving DecidableEq, Repr

/-- Observable output of one pipeline stage: the elements delivered in
order on the data conduit, then either a clean close (fail = none) or a
single error delivered on the error conduit followed by the close of
both conduits (fail = some e). -/
structure StreamModel (T : Type) where
  items : List T
  fail : Option GoError
  deriving DecidableEq, Repr

/-- Of (stream of.go): the worker sends the given elements in order on
the data conduit and then closes both conduits; it never produces an
error. -/
def Of {T : Type} (elements : List T) : StreamModel T :=
  ⟨elements, none⟩

/-- Worker loop of stream.Filter: receive one upstream element, forward
it when the predicate holds, discard it otherwise. -/
def filterLoop {T : Type} (p : T → Bool) : List T → List T
  | [] => []
  | x :: xs => if p x then x :: filterLoop p xs else filterLoop p xs

/-- Filter stage (stream.Filter): elements are filtered by the
predicate; an upstream error is forwarded unchanged on the error
conduit, after which the worker stops. -/
def filterGo {T : Type} (p : T → Bool) (s : StreamModel T) : StreamModel T :=
  ⟨filterLoop p s.items, s.fail⟩

/-- Worker loop of the method stream.Map: apply f to each upstream
element; when f reports an error the worker forwards the error and
stops without sending the produced element. -/
def mapLoop {T : Type} (f : T → T × Option GoError) :
    List T → List T × Option GoError
  | [] => ([], none)
  | x :: xs =>
    match f x with
    | (_, some e) => ([], some e)
    | (y, none) =>
      let r := mapLoop f xs
      (y :: r.1, r.2)

/-- Map stage (the method stream.Map, same element type): mapped
elements are forwarded in order; a mapper error or, failing that, the
upstream error terminates the stage. -/
def mapGo {T : Type} (f : T → T × Option GoError) (s : StreamModel T) :
    StreamModel T :=
  match mapLoop f s.items with
  | (ys, some e) => ⟨ys, some e⟩
  | (ys, none) => ⟨ys, s.fail⟩

/-- Worker loop of the free function stream.Map (type changing). -/
def mapFreeLoop {T U : Type} (f : T → U × Option GoError) :
    List T → List U × Option GoError
  | [] => ([], none)
  | x :: xs =>
    match f x with
    | (_, some e) => ([], some e)
    | (y, none) =>
      let r := mapFreeLoop f xs
      (y :: r.1, r.2)

/-- Free Map stage (stream from.go): the worker pulls from the upstream
iterator, so an upstream error equal to ErrIndexOutOfBounds is treated
as ordinary exhaustion (the errors.Is check) and is not forwarded; any
other upstream error is forwarded after the pulled elements. -/
def mapFreeGo {T U : Type} (f : T → U × Option GoError) (s : StreamModel T) :
    StreamModel U :=
  match mapFreeLoop f s.items with
  | (ys, some e) => ⟨ys, some e⟩
  | (ys, none) =>
    match s.fail with
    | some GoError.indexOutOfBounds => ⟨ys, none⟩
    | f2 => ⟨ys, f2⟩

/-- Result of AllMatch and AnyMatch: the Boolean answer, the returned
error, whether the call closed the completion channel before returning,
and the list of elements on which the predicate was evaluated. -/
structure MatchOut (T : Type) where
  result : Bool
  err : Option GoError
  closedComplete : Bool
  evaluated : List T
  deriving DecidableEq, Repr

/-- Loop of stream.AllMatch: on a closed data conduit return (true, nil)
without touching the completion channel; on a received error return
(false, err) without touching it; on the first element failing the
predicate close the completion channel and return (false, nil). -/
def allMatchLoop {T : Type} (p : T → Bool) :
    List T → Option GoError → MatchOut T
  | [], none => ⟨true, none, false, []⟩
  | [], some e => ⟨false, some e, false, []⟩
  | x :: xs, f =>
    if p x then
      let r := allMatchLoop p xs f
      ⟨r.result, r.err, r.closedComplete, x :: r.evaluated⟩
    else ⟨false, none, true, [x]⟩

/-- AllMatch terminal operation (stream.AllMatch). -/
def allMatchGo {T : Type} (p : T → Bool) (s : StreamModel T) : MatchOut T :=
  allMatchLoop p s.items s.fail

/-- Loop of stream.AnyMatch: symmetric to AllMatch; only the
short circuit branch (first matching element) closes the completion
channel. -/
def anyMatchLoop {T : Type} (p : T → Bool) :
    List T → Option GoError → MatchOut T
  | [], none => ⟨false, none, false, []⟩
  | [], some e => ⟨false, some e, false, []⟩
  | x :: xs, f =>
    if p x then ⟨true, none, true, [x]⟩
    else
      let r := anyMatchLoop p xs f
      ⟨r.result, r.err, r.closedComplete, x :: r.evaluated⟩

/-- AnyMatch terminal operation (stream.AnyMatch). -/
def anyMatchGo {T : Type} (p : T → Bool) (s : StreamModel T) : MatchOut T :=
  anyMatchLoop p s.items s.fail

/-- Result of ToSlice: the accumulated elements, the returned error and
whether the completion channel was closed on return. -/
structure SliceOut (T : Type) where
  result : List T
  err : Option GoError
  closedComplete : Bool
  deriving DecidableEq, Repr

/-- Loop of stream.ToSlice: append received elements in order; on a
received error return the accumulation so far together with the error;
on a closed conduit return the accumulation with a nil error. -/
def toSliceLoop {T : Type} : List T → Option GoError → List T × Option GoError
  | [], none => ([], none)
  | [], some e => ([], some e)
  | x :: xs, f =>
    let r := toSliceLoop xs f
    (x :: r.1, r.2)

/-- ToSlice terminal operation (stream.ToSlice): the completion channel
is closed by a deferred close on every return path. -/
def toSliceGo {T : Type} (s : StreamModel T) : SliceOut T :=
  ⟨(toSliceLoop s.items s.fail).1, (toSliceLoop s.items s.fail).2, true⟩

/-- Result of FindFirst and FindAny. -/
structure FindOut (T : Type) where
  result : T
  err : Option GoError
  closedComplete : Bool
  deriving DecidableEq, Repr

/-- FindFirst terminal operation (stream.FindFirst): returns the first
received element with a nil error; on a closed conduit it returns the
zero value with a nil error; on a received error it returns the zero
value with that error.  A deferred close always closes the completion
channel. -/
def findFirstGo {T : Type} (defaultValue : T) (s : StreamModel T) : FindOut T :=
  match s.items with
  | x :: _ => ⟨x, none, true⟩
  | [] =>
    match s.fail with
    | some e => ⟨defaultValue, some e, true⟩
    | none => ⟨defaultValue, none, true⟩

/-- FindAny terminal operation (stream.FindAny): defined in the source
as a direct call to FindFirst. -/
def findAnyGo {T : Type} (defaultValue : T) (s : StreamModel T) : FindOut T :=
  findFirstGo defaultValue s

/-- Result of Count. -/
structure CountOut where
  result : Nat
  err : Option GoError
  closedComplete : Bool
  deriving DecidableEq, Repr

/-- Loop of stream.Count. -/
def countLoop {T : Type} : List T → Option GoError → Nat × Option GoError
  | [], none => (0, none)
  | [], some e => (0, some e)
  | _ :: xs, f =>
    let r := countLoop xs f
    (r.1 + 1, r.2)

/-- Count terminal operation (stream.Count): a deferred close always
closes the completion channel. -/
def countGo {T : Type} (s : StreamModel T) : CountOut :=
  ⟨(countLoop s.items s.fail).1, (countLoop s.items s.fail).2, true⟩

/-- Event sent by a source stage on one of its two conduits. -/
inductive CEvent (T : Type) where
  | data (x : T)
  | failure (e : GoError)
  deriving DecidableEq, Repr

/-- Worker loop of stream.FromCollection, translated from the source:
the cursor is modelled by the list of results of its successive Next
calls while HasNext is true.  Per step the worker reads (e, err) from
the cursor; when err is not nil it sends err on the error conduit, and
then, because the source lacks a return after that send, it still sends
e (the zero value produced alongside the error) on the data conduit and
keeps driving the cursor.  The consumer is assumed to keep reading and
never to close the completion channel. -/
def fromCollectionLoop {T : Type} :
    List (T × Option GoError) → List (CEvent T)
  | [] => []
  | (e, none) :: rest => CEvent.data e :: fromCollectionLoop rest
  | (e, some err) :: rest =>
      CEvent.failure err :: CEvent.data e :: fromCollectionLoop rest

/-- State of the pull iterator adapter (stream.Iterator): the still
undelivered upstream events, the one element lookahead slot, the sticky
error, and the finished flag, which is set exactly when this iterator
has closed the completion channel.  Once the completion channel is
closed the producer exits, so the embedding resolves the select of a
finished iterator to the completion branch. -/
structure IterState (T : Type) where
  upstream : StreamModel T
  lastItem : Option T
  lastError : Option GoError
  finished : Bool
  deriving DecidableEq, Repr

/-- HasNext (iterator.HasNext): returns true without touching the
conduits when the lookahead is populated; otherwise performs one
blocking read: an element fills the lookahead, an error populates the
sticky lastError, a closed conduit sets the finished flag. -/
def hasNextGo {T : Type} (i : IterState T) : Bool × IterState T :=
  match i.lastItem with
  | some _ => (true, i)
  | none =>
    if i.finished then (false, i)
    else
      match i.upstream.items, i.upstream.fail with
      | x :: xs, f => (true, { i with lastItem := some x, upstream := ⟨xs, f⟩ })
      | [], some e => (false, { i with lastError := some e, upstream := ⟨[], none⟩ })
      | [], none => (false, { i with finished := true })

/-- Next (iterator.Next): the sticky error is returned first; then a
populated lookahead is returned and cleared; otherwise one blocking
read is performed, a closed conduit yielding ErrIndexOutOfBounds and an
error being recorded as sticky and returned. -/
def nextGo {T : Type} (defaultValue : T) (i : IterState T) :
    (T × Option GoError) × IterState T :=
  match i.lastError with
  | some e => ((defaultValue, some e), i)
  | none =>
    match i.lastItem with
    | some x => ((x, none), { i with lastItem := none })
    | none =>
      if i.finished then
        ((defaultValue, some GoError.indexOutOfBounds), i)
      else
        match i.upstream.items, i.upstream.fail with
        | x :: xs, f => ((x, none), { i with upstream := ⟨xs, f⟩ })
        | [], some e =>
          ((defaultValue, some e),
            { i with lastError := some e, upstream := ⟨[], none⟩, finished := true })
        | [], none =>
          ((defaultValue, some GoError.indexOutOfBounds), { i with finished := true })

/-- Outcome of the (n+1)-st consecutive Next call started in state i. -/
def nextIterate {T : Type} (defaultValue : T) :
    Nat → IterState T → (T × Option GoError) × IterState T
  | 0, i => nextGo defaultValue i
  | n + 1, i => nextIterate defaultValue n (nextGo defaultValue i).2

/-- Outcome of the (n+1)-st consecutive HasNext call started in state
i, with no intervening Next. -/
def hasNextIterate {T : Type} : Nat → IterState T → Bool × IterState T
  | 0, i => hasNextGo i
  | n + 1, i => hasNextIterate n (hasNextGo i).2

/-- State of the shared completion channel together with the finished
flag of one iterator: closeCount counts how many close transitions have
been performed on the channel. -/
structure CloseState where
  finished : Bool
  closeCount : Nat
  deriving DecidableEq, Repr

/-- Go channel close: closing an already closed channel is a runtime
fault, modelled as none. -/
def chanClose : Nat → Option Nat
  | 0 => some 1
  | _ + 1 => none

/-- Close of the iterator (iterator.Close, via iterator.finish): the
finished flag guards the close, so a second Close on the same iterator
is a no op. -/
def iterCloseGo (c : CloseState) : Option CloseState :=
  if c.finished then some c
  else
    match chanClose c.closeCount with
    | none => none
    | some n => some ⟨true, n⟩

/-- Close performed by a draining terminal operation (the deferred
close of the completion channel in ToSlice, FindFirst, FindAny and
Count, and the short circuit close in AllMatch and AnyMatch): it is
unconditional, with no guard against an already closed channel. -/
def terminalCloseGo (c : CloseState) : Option CloseState :=
  match chanClose c.closeCount with
  | none => none
  | some n => some ⟨c.finished, n⟩

/-- Result of n successive iterator Close calls. -/
def iterCloseN : Nat → CloseState → Option CloseState
  | 0, c => some c
  | n + 1, c =>
    match iterCloseGo c with
    | none => none
    | some c2 => iterCloseN n c2

/-- Helper: the ToSlice loop accumulates exactly the delivered elements
and ends with the terminal event of the stage. -/
theorem toSliceLoop_eq {T : Type} :
    ∀ (l : List T) (f : Option GoError), toSliceLoop l f = (l, f)
  | [], none => rfl
  | [], some _ => rfl
  | x :: xs, f => by simp [toSliceLoop, toSliceLoop_eq xs f]

/-- Helper: the Filter worker loop computes the list filter. -/
theorem filterLoop_eq {T : Type} (p : T → Bool) :
    ∀ l : List T, filterLoop p l = List.filter p l
  | [] => rfl
  | x :: xs => by
    cases h : p x <;>
      simp [filterLoop, h, List.filter_cons, filterLoop_eq p xs]

/-- Helper: the free Map worker loop with a never failing mapper
computes the list map and reports no error. -/
theorem mapFreeLoop_pure {T U : Type} (F : T → U) :
    ∀ l : List T, mapFreeLoop (fun x => (F x, none)) l = (l.map F, none)
  | [] => rfl
  | x :: xs => by simp [mapFreeLoop, mapFreeLoop_pure F xs]

/-- Helper: the method Map worker loop with a never failing mapper
computes the list map and reports no error. -/
theorem mapLoop_pure {T : Type} (G : T → T) :
    ∀ l : List T, mapLoop (fun x => (G x, none)) l = (l.map G, none)
  | [] => rfl
  | x :: xs => by simp [mapLoop, mapLoop_pure G xs]

/-- C1: the claim fails on the code.  Evaluating stream.FindFirst at the
failing input: on an exhausted empty pipeline the code returns the zero
value together with a nil error, not the ElementNotFound error the
claim requires; on a non empty pipeline it does return the first
element in source order, and FindAny is a direct call to FindFirst. -/
theorem findFirst_exhausted_returns_nil_error :
    findFirstGo (0 : Nat) (Of ([] : List Nat)) = ⟨0, none, true⟩ ∧
    findFirstGo (0 : Nat) (Of [5, 7]) = ⟨5, none, true⟩ ∧
    ∀ (s : StreamModel Nat) (d : Nat), findAnyGo d s = findFirstGo d s := by
  exact ⟨rfl, rfl, fun _ _ => rfl⟩

/-- C2: the claim fails on the code.  AllMatch returns on exhaustion
without closing the completion channel, and returns a received error
without closing it either, so an upstream worker blocked on a send
is leaked; AnyMatch behaves the same; ToSlice, FindFirst and Count
close the channel on every return path. -/
theorem allMatch_leaves_complete_open :
    (allMatchGo (fun _ => true) (Of ([] : List Nat))).closedComplete = false ∧
    allMatchGo (fun _ => true)
        (mapGo (fun n => (n, some (GoError.userError 7))) (Of [1, 2, 3])) =
      ⟨false, some (GoError.userError 7), false, []⟩ ∧
    (anyMatchGo (fun _ => false) (Of ([] : List Nat))).closedComplete = false ∧
    (toSliceGo (Of ([] : List Nat))).closedComplete = true ∧
    (findFirstGo (0 : Nat) (Of ([] : List Nat))).closedComplete = true ∧
    (countGo (Of ([] : List Nat))).closedComplete = true := by
  exact ⟨rfl, rfl, rfl, rfl, rfl, rfl⟩

/-- C3: ToSlice of Filter of Of returns exactly the order preserving
subsequence of the source elements satisfying the predicate, with no
error, closing the completion channel. -/
theorem toSlice_filter_of (T : Type) (S : List T) (p : T → Bool) :
    toSliceGo (filterGo p (Of S)) = ⟨S.filter p, none, true⟩ := by
  simp [toSliceGo, filterGo, Of, toSliceLoop_eq, filterLoop_eq]

/-- C4: ToSlice of Map of Of, for a mapper that never reports an error,
returns the mapped elements in order with no error; this holds both for
the free type changing Map of stream from.go and for the method Map. -/
theorem toSlice_map_of (T U : Type) (S : List T) (F : T → U) (G : T → T) :
    toSliceGo (mapFreeGo (fun x => (F x, none)) (Of S)) = ⟨S.map F, none, true⟩ ∧
    toSliceGo (mapGo (fun x => (G x, none)) (Of S)) = ⟨S.map G, none, true⟩ := by
  constructor
  · simp [toSliceGo, mapFreeGo, Of, mapFreeLoop_pure, toSliceLoop_eq]
  · simp [toSliceGo, mapGo, Of, mapLoop_pure, toSliceLoop_eq]

/-- C6: the claim fails on the code.  Evaluating the FromCollection
worker at the failing input: after forwarding a cursor error on the
error conduit the worker does not stop, it sends the accompanying zero
valued element on the data conduit and keeps driving the cursor; an
error free cursor is forwarded in iteration order with no error
event. -/
theorem fromCollection_sends_after_error :
    fromCollectionLoop [((0 : Nat), some (GoError.userError 7))] =
      [CEvent.failure (GoError.userError 7), CEvent.data 0] ∧
    ∀ steps : List Nat,
      fromCollectionLoop (steps.map (fun e => (e, none))) =
        steps.map CEvent.data := by
  constructor
  · rfl
  · intro steps
    induction steps with
    | nil => rfl
    | cons a as ih => simp [fromCollectionLoop, ih]

/-- C10: ToSlice returns the elements the pipeline delivered before its
terminal event, in order, together with the error when one was
observed, and with a nil error otherwise; the partial accumulation is
never discarded. -/
theorem toSlice_returns_partial_accumulation (T : Type) (s : StreamModel T) :
    toSliceGo s = ⟨s.items, s.fail, true⟩ := by
  simp [toSliceGo, toSliceLoop_eq]

/-- C5: AllMatch over an Of source returns true exactly when every
element satisfies the predicate (in particular on the empty source),
returns false with a nil error as soon as the first failing element is
read, closes the completion channel exactly in that short circuit case,
and evaluates the predicate only on the elements up to and including
the first failing one. -/
theorem allMatch_of_short_circuits (T : Type) (S : List T) (p : T → Bool) :
    allMatchGo p (Of S) =
      match S.dropWhile p with
      | [] => ⟨true, none, false, S⟩
      | x :: _ => ⟨false, none, true, S.takeWhile p ++ [x]⟩ := by
  induction S with
  | nil => rfl
  | cons a as ih =>
    cases h : p a with
    | false =>
      simp [allMatchGo, Of, allMatchLoop, h, List.dropWhile_cons, List.takeWhile_cons]
    | true =>
      have ih2 := ih
      simp only [allMatchGo, Of] at ih2
      rcases hd : List.dropWhile p as with _ | ⟨x, rest⟩ <;>
        simp [allMatchGo, Of, allMatchLoop, h, List.dropWhile_cons,
          List.takeWhile_cons, hd] <;>
        simp only [hd] at ih2 <;> simp [ih2]

/-- Helper: once the iterator has both set its finished flag and closed
the channel, further Close calls change nothing and never fault. -/
theorem iterCloseN_fixed : ∀ n : Nat, iterCloseN n ⟨true, 1⟩ = some ⟨true, 1⟩
  | 0 => rfl
  | n + 1 => by simp [iterCloseN, iterCloseGo, iterCloseN_fixed n]

/-- C9 counterexample: on a freshly built pipeline, running a draining
terminal operation (whose deferred close closes the completion channel
unconditionally) and then the iterator Close faults, because the
iterator finished flag does not know about the terminal close and the
second close hits an already closed channel.  This refutes the claim
that combining a terminal operation with an explicit Close never
fails. -/
theorem terminal_then_close_faults :
    (terminalCloseGo ⟨false, 0⟩).bind iterCloseGo = none := rfl

/-- C9 amended: calling the iterator Close any number of times on a
pipeline whose completion channel is still open never fails and closes
the channel exactly once; it is only the combination with an
unconditional terminal close that faults. -/
theorem iterClose_idempotent (n : Nat) :
    iterCloseN (n + 1) ⟨false, 0⟩ = some ⟨true, 1⟩ := by
  have h : iterCloseGo ⟨false, 0⟩ = some ⟨true, 1⟩ := rfl
  simp [iterCloseN, h, iterCloseN_fixed n]

/-- Helper: Next on a state carrying a sticky error returns that error
and leaves the state unchanged. -/
theorem nextGo_sticky {T : Type} (d : T) (i : IterState T) (e : GoError)
    (h : i.lastError = some e) : nextGo d i = ((d, some e), i) := by
  simp [nextGo, h]

/-- Helper: updating the finished flag of an already finished iterator
state changes nothing. -/
theorem with_finished_self {T : Type} (i : IterState T) (h : i.finished = true) :
    ({ i with finished := true } : IterState T) = i := by
  cases i; simp_all

/-- Helper: Next on an exhausted state (conduits closed, no lookahead,
no sticky error) returns ErrIndexOutOfBounds and only sets the finished
flag. -/
theorem nextGo_exhausted {T : Type} (d : T) (i : IterState T)
    (h1 : i.upstream = ⟨[], none⟩) (h2 : i.lastItem = none)
    (h3 : i.lastError = none) :
    nextGo d i = ((d, some GoError.indexOutOfBounds), { i with finished := true }) := by
  rcases i with ⟨u, li, le, fin⟩
  dsimp only at h1 h2 h3
  subst h1; subst h2; subst h3
  cases fin <;> rfl

/-- Helper: on an exhausted and already finished state every Next call
returns ErrIndexOutOfBounds and the state is a fixed point. -/
theorem nextIterate_exhausted_fixed {T : Type} (d : T) (i : IterState T)
    (h1 : i.upstream = ⟨[], none⟩) (h2 : i.lastItem = none)
    (h3 : i.lastError = none) (h4 : i.finished = true) :
    ∀ n, nextIterate d n i = ((d, some GoError.indexOutOfBounds), i) := by
  have hstep : nextGo d i = ((d, some GoError.indexOutOfBounds), i) := by
    have := nextGo_exhausted d i h1 h2 h3
    rwa [with_finished_self i h4] at this
  intro n
  induction n with
  | zero => exact hstep
  | succ n ih => simp [nextIterate, hstep, ih]

/-- C7: once the underlying pipeline is exhausted, every subsequent Next
call on the pull iterator returns the same ErrIndexOutOfBounds
condition, and once the sticky lastError is populated every subsequent
Next call returns that same error. -/
theorem next_terminal_idempotent (T : Type) (d : T) (i : IterState T) :
    (i.upstream = ⟨[], none⟩ → i.lastItem = none → i.lastError = none →
      ∀ n, (nextIterate d n i).1 = (d, some GoError.indexOutOfBounds)) ∧
    (∀ e, i.lastError = some e →
      ∀ n, (nextIterate d n i).1 = (d, some e)) := by
  constructor
  · intro h1 h2 h3 n
    cases n with
    | zero => simp [nextIterate, nextGo_exhausted d i h1 h2 h3]
    | succ n =>
      have hfix := nextIterate_exhausted_fixed d { i with finished := true }
        (by simpa using h1) (by simpa using h2) (by simpa using h3) rfl
      simp [nextIterate, nextGo_exhausted d i h1 h2 h3, hfix n]
  · intro e h n
    induction n with
    | zero => simp [nextIterate, nextGo_sticky d i e h]
    | succ n ih => simp [nextIterate, nextGo_sticky d i e h, ih]

/-- C7 witness: concrete exhausted and sticky error iterator states. -/
theorem next_terminal_idempotent_witness :
    (nextIterate (0 : Nat) 0 ⟨⟨[], none⟩, none, none, false⟩).1 =
      (0, some GoError.indexOutOfBounds) ∧
    (nextIterate (0 : Nat) 3 ⟨⟨[], none⟩, none, none, false⟩).1 =
      (0, some GoError.indexOutOfBounds) ∧
    (nextIterate (0 : Nat) 2 ⟨⟨[], none⟩, none, some (GoError.userError 3), false⟩).1 =
      (0, some (GoError.userError 3)) := by
  have h1 := next_terminal_idempotent Nat 0 ⟨⟨[], none⟩, none, none, false⟩
  have h2 := next_terminal_idempotent Nat 0
    ⟨⟨[], none⟩, none, some (GoError.userError 3), false⟩
  exact ⟨h1.1 rfl rfl rfl 0, h1.1 rfl rfl rfl 3, h2.2 (GoError.userError 3) rfl 2⟩

/-- Helper: a second HasNext call returns the same Boolean as the first
and does not touch the conduit or the lookahead slot again. -/
theorem hasNextGo_two {T : Type} (i : IterState T) :
    (hasNextGo (hasNextGo i).2).1 = (hasNextGo i).1 ∧
    (hasNextGo (hasNextGo i).2).2.upstream = (hasNextGo i).2.upstream ∧
    (hasNextGo (hasNextGo i).2).2.lastItem = (hasNextGo i).2.lastItem := by
  rcases i with ⟨⟨items, fail⟩, li, le, fin⟩
  cases li <;> cases fin <;> cases items <;> cases fail <;> simp [hasNextGo]

/-- Helper: every repetition of HasNext yields the Boolean of the first
call and leaves the conduit and lookahead where the first call put
them. -/
theorem hasNextIterate_firstCall {T : Type} :
    ∀ (n : Nat) (i : IterState T),
      (hasNextIterate n i).1 = (hasNextGo i).1 ∧
      (hasNextIterate n i).2.upstream = (hasNextGo i).2.upstream ∧
      (hasNextIterate n i).2.lastItem = (hasNextGo i).2.lastItem
  | 0, i => ⟨rfl, rfl, rfl⟩
  | n + 1, i => by
    have ih := hasNextIterate_firstCall n (hasNextGo i).2
    have h2 := hasNextGo_two i
    exact ⟨ih.1.trans h2.1,
      ih.2.1.trans h2.2.1,
      ih.2.2.trans h2.2.2⟩

/-- C8: HasNext is idempotent.  Any number of repeated HasNext calls
without an intervening Next return the Boolean of the first call and
consume nothing further from the underlying conduit (the undelivered
upstream part and the lookahead slot stay exactly as the first call
left them), and when HasNext answered true on a state without a sticky
error, the element it buffered is exactly the one the following Next
returns. -/
theorem hasNext_idempotent (T : Type) (i : IterState T) :
    (∀ n, (hasNextIterate n i).1 = (hasNextGo i).1 ∧
      (hasNextIterate n i).2.upstream = (hasNextGo i).2.upstream ∧
      (hasNextIterate n i).2.lastItem = (hasNextGo i).2.lastItem) ∧
    (i.lastError = none → (hasNextGo i).1 = true →
      ∀ d : T, ∃ x, (hasNextGo i).2.lastItem = some x ∧
        nextGo d (hasNextGo i).2 =
          ((x, none), { (hasNextGo i).2 with lastItem := none })) := by
  constructor
  · intro n; exact hasNextIterate_firstCall n i
  · intro hle hb d
    rcases i with ⟨⟨items, fail⟩, li, le, fin⟩
    dsimp only at hle
    subst hle
    cases li with
    | some x => exact ⟨x, rfl, rfl⟩
    | none =>
      cases fin with
      | true => simp [hasNextGo] at hb
      | false =>
        cases items with
        | nil =>
          cases fail <;> simp [hasNextGo] at hb
        | cons x xs => exact ⟨x, rfl, rfl⟩

/-- C8 witness: a concrete live iterator state. -/
theorem hasNext_idempotent_witness :
    (hasNextIterate 4 (⟨⟨[3, 4], none⟩, none, none, false⟩ : IterState Nat)).1 = true ∧
    ∃ x, (hasNextGo (⟨⟨[3, 4], none⟩, none, none, false⟩ : IterState Nat)).2.lastItem =
        some x ∧
      nextGo 0 (hasNextGo (⟨⟨[3, 4], none⟩, none, none, false⟩ : IterState Nat)).2 =
        ((x, none),
          { (hasNextGo (⟨⟨[3, 4], none⟩, none, none, false⟩ : IterState Nat)).2 with
              lastItem := none }) := by
  have h := hasNext_idempotent Nat ⟨⟨[3, 4], none⟩, none, none, false⟩
  exact ⟨(h.1 4).1.trans rfl, h.2 rfl rfl 0⟩

end Collections
